import Mathlib

/-!
Shallow embedding of `src/main.py`, a chat bot that inspects a media link,
offers quality buttons, downloads the chosen format and uploads it back.

Pure helpers (`human_readable_size`, payload splitting, the quality-button
construction) are embedded as Lean functions.  The two event handlers
(`handle_message`, `button_click`) are embedded as deterministic interpreters
over an environment record that fixes the outcome of every external call
(chat transport, extraction library, file system); the interpreter returns
the trace of externally visible effects, the final state of the status
message and whether an exception escaped the handler.  Python floats only
ever get divided by 1024 here, so they are modelled by exact rationals;
console logging is not modelled.
-/

namespace MediaBot

/-- Error values carried by Python exceptions; only the text matters here. -/
abbrev Err := String

/-- Embedding of Python list indexing `l[i]`: raises `IndexError` past the end. -/
def pyIdx {α : Type} (l : List α) (i : Nat) : Except Err α :=
  match l.get? i with
  | some a => .ok a
  | none => .error "list index out of range"

/-- Embedding of Python `s.split(c)` for a one-character separator, on the
underlying character list.  The result is always nonempty, and splitting a
string that does not contain the separator yields the whole string back. -/
def splitOnChar (c : Char) : List Char → List (List Char)
  | [] => [[]]
  | a :: rest =>
    match splitOnChar c rest with
    | [] => [[]]
    | g :: gs => if a = c then [] :: g :: gs else (a :: g) :: gs

/-! ### Size formatter (`human_readable_size`, src/main.py lines 34-39) -/

/-- The unit list iterated by `human_readable_size`. -/
def sizeUnits : List String := ["B", "KB", "MB", "GB", "TB"]

/-- The loop of `human_readable_size`: walk the unit list, returning as soon
as the running value drops below 1024, else divide by 1024; after exhausting
the list the (already divided) value is reported with unit `TB`.  The source
then renders the value with `decimal_places` decimals and appends the unit;
the numeric value and the chosen unit are what this embedding returns. -/
def hrsLoop : List String → ℚ → ℚ × String
  | [], s => (s, "TB")
  | u :: rest, s => if s < 1024 then (s, u) else hrsLoop rest (s / 1024)

/-- Embedding of `human_readable_size(size, decimal_places=2)`, keeping the
exact numeric magnitude and the unit string of the formatted result. -/
def human_readable_size (size : ℚ) : ℚ × String :=
  hrsLoop sizeUnits size

/-- The power of 1024 a unit string stands for. -/
def unitPow (u : String) : ℕ :=
  if u = "B" then 0
  else if u = "KB" then 1
  else if u = "MB" then 2
  else if u = "GB" then 3
  else 4

/-! ### Liveness endpoint (src/main.py lines 21-31) -/

/-- An HTTP response: status code and body. -/
structure HttpResponse where
  status : Nat
  body : String
deriving DecidableEq

/-- Embedding of `SimpleHTTPRequestHandler.do_GET`: ignores the request path,
answers 200 with the fixed body. -/
def do_GET (_path : String) : HttpResponse :=
  ⟨200, "Bot is running!"⟩

/-- Models the external HTTP framework's dispatch (`BaseHTTPRequestHandler`
from the standard library): an incoming request is routed to the handler
method named after its verb; the source class defines only `do_GET`, and the
framework's documented behaviour for a verb with no matching method is to
answer 501 Unsupported method. -/
def handleRequest (method : String) (path : String) : HttpResponse :=
  if method = "GET" then do_GET path
  else ⟨501, "Unsupported method"⟩

/-- Embedding of `int(os.environ.get('PORT', 8080))` in `start_web_server`
(the environment value, when present, already parsed to a number). -/
def serverPort (envPort : Option Nat) : Nat :=
  envPort.getD 8080

/-! ### Startup (src/main.py lines 12-14 and 173-190) -/

/-- Python truthiness of an optional string: absent and empty are falsy. -/
def strTruthy : Option String → Bool
  | none => false
  | some s => s ≠ ""

/-- Process environment at startup. -/
structure StartEnv where
  token : Option String
  render : Option String

/-- Externally visible steps of module load plus the `__main__` block. -/
inductive StartEffect
  | printTokenError
  | startWebServer
  | buildApplication (token : Option String)
  | runPolling
deriving DecidableEq

/-- Embedding of the top-level flow: the module-load token check (lines
12-14) followed by the `__main__` block (lines 173-190).  A falsy token only
prints an error message; execution then proceeds unconditionally to start
the optional web server thread, build the application with that token and
run the polling loop. -/
def mainFlow (env : StartEnv) : List StartEffect :=
  (if strTruthy env.token then [] else [StartEffect.printTokenError]) ++
    (if strTruthy env.render then [StartEffect.startWebServer] else []) ++
    [StartEffect.buildApplication env.token, StartEffect.runPolling]

/-! ### Quality menu construction (`handle_message`, src/main.py lines 57-84) -/

/-- A format descriptor as used by `handle_message`: only the vertical
resolution is consulted (`f.get('height')`); `none` stands for a format
dictionary without a usable height. -/
structure MediaFormat where
  height : Option Nat
deriving DecidableEq

/-- Python truthiness of `f.get('height')`: `None` and `0` are falsy. -/
def heightTruthy : Option Nat → Bool
  | none => false
  | some h => h ≠ 0

/-- The sort key `lambda x: x['height']` (every format reaching the sort has
a truthy height, so the default is never observed). -/
def keyH (f : MediaFormat) : ℕ :=
  f.height.getD 0

/-- The comparison realised by `sorted(..., key=lambda x: x['height'],
reverse=True)`: `a` may precede `b` when the key of `b` is at most that of
`a`. -/
def byHeightDesc (a b : MediaFormat) : Prop :=
  keyH b ≤ keyH a

instance : DecidableRel byHeightDesc := fun a b => by
  unfold byHeightDesc; infer_instance

instance : IsTotal MediaFormat byHeightDesc :=
  ⟨fun a b => le_total (keyH b) (keyH a)⟩

instance : IsTrans MediaFormat byHeightDesc :=
  ⟨fun _ _ _ h1 h2 => le_trans h2 h1⟩

/-- Embedding of
`sorted([f for f in formats if f.get('height')], key=..., reverse=True)`;
Python's sort is stable, as is insertion sort. -/
def sortFormatsDesc (formats : List MediaFormat) : List MediaFormat :=
  List.insertionSort byHeightDesc (formats.filter fun f => heightTruthy f.height)

/-- An inline keyboard button: label text and callback payload. -/
structure Btn where
  text : String
  callbackData : String
deriving DecidableEq

/-- The audio button appended first: label `🎵 MP3 / Audio`, payload
`audio|<id>`. -/
def audioButton (infoId : String) : Btn :=
  ⟨"🎵 MP3 / Audio", "audio|" ++ infoId⟩

/-- A video quality button: label `🎬 <res>p`, payload `video|<id>|<res>`. -/
def videoButton (infoId : String) (res : ℕ) : Btn :=
  ⟨"🎬 " ++ toString res ++ "p", "video|" ++ infoId ++ "|" ++ toString res⟩

/-- Embedding of the video-button loop (lines 74-82): walk the sorted
formats; for a truthy height not yet in `seen_res`, and only while fewer
than 5 resolutions have been kept, append a one-button row and record the
resolution. -/
def videoRows (infoId : String) : List MediaFormat → Finset ℕ → List (List Btn)
  | [], _ => []
  | f :: rest, seen =>
    match f.height with
    | none => videoRows infoId rest seen
    | some r =>
      if r ≠ 0 ∧ r ∉ seen then
        if seen.card < 5 then
          [videoButton infoId r] :: videoRows infoId rest (insert r seen)
        else videoRows infoId rest seen
      else videoRows infoId rest seen

/-- Embedding of the whole keyboard of lines 64-84: the audio row followed by
the video rows computed from the sorted, deduplicated formats. -/
def buildKeyboard (infoId : String) (formats : List MediaFormat) : List (List Btn) :=
  [audioButton infoId] :: videoRows infoId (sortFormatsDesc formats) ∅

/-- Reference deduplication keeping the first occurrence of every value:
the head is kept and all of its later duplicates are dropped before
recursing.  Used to characterise the `seen_res` loop. -/
def firstDedup : List ℕ → List ℕ
  | [] => []
  | a :: l => a :: firstDedup (l.filter fun b => b ≠ a)
termination_by l => l.length
decreasing_by
  simp only [List.length_cons]
  exact Nat.lt_succ_of_le (List.length_filter_le _ _)

/-! ### Link inspector (`handle_message`, src/main.py lines 46-96)

The handler is embedded as an interpreter over an environment fixing the
outcome of every external call.  An effect is recorded when the call
succeeds; a failing call records no effect and transfers control the way
the Python exception does: calls inside the `try` jump to the `except`
block, calls outside it escape the handler. -/

/-- Metadata returned by `extract_info(url, download=False)`; fields the
handler reads via `info.get(...)` are optional, `info['id']` is indexed
directly and is modelled as always present (a missing key would raise just
like any other extraction failure, which the environment already covers). -/
structure YdlMeta where
  id : String
  title : Option String
  thumbnail : Option String
  duration : Option Nat
  formats : List MediaFormat
deriving DecidableEq

/-- Outcomes of the external calls made by `handle_message`. -/
structure InspectEnv where
  replyChecking : Except Err Unit
  extractInfo : Except Err YdlMeta
  sendMenu : Except Err Unit
  deleteChecking : Except Err Unit
  editFail : Except Err Unit

/-- Externally visible effects of `handle_message`. -/
inductive InspectEffect
  | postChecking
  | sendMenuPhoto (thumb : String) (caption : String) (kb : List (List Btn))
  | sendMenuText (text : String) (kb : List (List Btn))
  | deleteChecking
  | editChecking (t : String)
deriving DecidableEq

/-- Final state of one `handle_message` invocation: effect trace, current
text of the status message (`none` when never posted or deleted), and the
error that escaped the handler, if any. -/
structure InspectResult where
  trace : List InspectEffect
  statusText : Option String
  escaped : Option Err
deriving DecidableEq

/-- The text of the `status_msg` acknowledgment. -/
def checkingText : String := "🔍 Checking link..."

/-- The failure notice written into the status message by the `except`
block of `handle_message`. -/
def inspectFailText (e : Err) : String :=
  "❌ Error: " ++ e ++ "\nLink might not be supported."

/-- The caption sent with the menu. -/
def menuCaption (title : String) : String :=
  "📹 **" ++ title ++ "**\n\nSelect a format:"

/-- The `except` block of `handle_message`: edit the status message to the
failure notice; if that edit itself raises, the new error escapes. -/
def inspectRescue (env : InspectEnv) (tr : List InspectEffect) (e : Err) : InspectResult :=
  match env.editFail with
  | .error e2 => ⟨tr, some checkingText, some e2⟩
  | .ok _ => ⟨tr ++ [.editChecking (inspectFailText e)], some (inspectFailText e), none⟩

/-- Embedding of `handle_message`: post the checking acknowledgment (outside
the `try`, so its failure escapes), extract metadata, build the keyboard,
send the menu as photo or text, delete the acknowledgment; any error inside
the `try` lands in `inspectRescue`. -/
def handle_message (env : InspectEnv) : InspectResult :=
  match env.replyChecking with
  | .error e => ⟨[], none, some e⟩
  | .ok _ =>
    let tr0 := [InspectEffect.postChecking]
    match env.extractInfo with
    | .error e => inspectRescue env tr0 e
    | .ok info =>
      let title := info.title.getD "Unknown Title"
      let kb := buildKeyboard info.id info.formats
      let menuEff :=
        match info.thumbnail with
        | some t => InspectEffect.sendMenuPhoto t (menuCaption title) kb
        | none => InspectEffect.sendMenuText (menuCaption title) kb
      match env.sendMenu with
      | .error e => inspectRescue env tr0 e
      | .ok _ =>
        match env.deleteChecking with
        | .error e => inspectRescue env (tr0 ++ [menuEff]) e
        | .ok _ => ⟨tr0 ++ [menuEff, .deleteChecking], none, none⟩

/-! ### Format downloader (`button_click`, src/main.py lines 98-170) -/

/-- One entry of `info['requested_downloads']`. -/
structure ReqDownload where
  filepath : String
deriving DecidableEq

/-- The result of `extract_info(url, download=True)`, restricted to the
fields `button_click` reads. -/
structure YdlDlInfo where
  id : String
  height : Option Nat
  ext : String
  title : Option String
  requestedDownloads : Option (List ReqDownload)
deriving DecidableEq

/-- A post-processing step requested from the extraction library. -/
structure PostProcessor where
  key : String
  preferredcodec : String
  preferredquality : String
deriving DecidableEq

/-- The `ydl_opts` dictionary fields `button_click` sets. -/
structure YdlOpts where
  outtmpl : String
  format : Option String
  postprocessors : List PostProcessor
  mergeOutputFormat : Option String
deriving DecidableEq

/-- The generic options of lines 113-117. -/
def baseOpts : YdlOpts :=
  ⟨"downloads/%(id)s_%(height)s.%(ext)s", none, [], none⟩

/-- The audio branch options (lines 120-129). -/
def audioOpts : YdlOpts :=
  ⟨"downloads/%(id)s.%(ext)s", some "bestaudio/best",
    [⟨"FFmpegExtractAudio", "mp3", "192"⟩], none⟩

/-- The video branch options (lines 130-136), for the resolution string
taken from the payload. -/
def videoOpts (res : String) : YdlOpts :=
  ⟨"downloads/%(id)s_%(height)s.%(ext)s",
    some ("bestvideo[height=" ++ res ++ "]+bestaudio/best[height=" ++ res ++ "]/best"),
    [], some "mp4"⟩

/-- The canonical URL reconstructed from the content identifier (line 106). -/
def watchUrl (vidId : String) : String :=
  "https://www.youtube.com/watch?v=" ++ vidId

/-- Models the external library's rendering of the two output templates used
here (`prepare_filename`): field references are substituted from the result
metadata, a missing height rendering as `NA`. -/
def renderTmpl (opts : YdlOpts) (info : YdlDlInfo) : String :=
  if opts.outtmpl = "downloads/%(id)s.%(ext)s" then
    "downloads/" ++ info.id ++ "." ++ info.ext
  else
    "downloads/" ++ info.id ++ "_" ++
      (match info.height with | some h => toString h | none => "NA") ++ "." ++ info.ext

/-- Embedding of `filename.rsplit('.', 1)[0]`: drop the last dot and what
follows it, or keep everything when there is no dot. -/
def rsplitBase (cs : List Char) : List Char :=
  if '.' ∈ cs then ((cs.reverse.dropWhile fun c => c ≠ '.').drop 1).reverse else cs

/-- Externally visible effects of `button_click`. -/
inductive BcEffect
  | answer
  | removeMarkup
  | postStatus (t : String)
  | editStatus (t : String)
  | download (url : String) (opts : YdlOpts)
  | uploadAudio (path : String) (title : String)
  | uploadVideo (path : String) (caption : String)
  | deleteStatus
  | removeFile (p : String)
deriving DecidableEq

/-- Outcomes of the external calls made by `button_click`; `fileExists`
answers the `os.path.exists` checks.  Failure of `open(filename)` is folded
into the upload outcome. -/
structure BcEnv where
  answer : Except Err Unit
  editMarkup : Except Err Unit
  replyStatus : Except Err Unit
  download : Except Err YdlDlInfo
  editUploading : Except Err Unit
  upload : Except Err Unit
  deleteStatus : Except Err Unit
  editFail : Except Err Unit
  fileExists : String → Bool

/-- Final state of one `button_click` invocation. -/
structure BcResult where
  trace : List BcEffect
  statusText : Option String
  escaped : Option Err
deriving DecidableEq

/-- The failure notice of the `except` block of `button_click`. -/
def dlFailText (e : Err) : String :=
  "❌ Download failed: " ++ e

/-- The initial status-message text (line 109). -/
def downloadingText (t : String) : String :=
  "⬇️ Downloading " ++ t ++ "... This might take a moment."

/-- The upload-progress text (line 151). -/
def uploadingText : String := "⬆️ Uploading to Telegram..."

/-- The `except` block of `button_click` (lines 165-170): edit the status to
the failure notice (if that edit raises, the new error escapes and no
cleanup runs), then delete the local file when the name was bound and the
file exists. -/
def bcRescue (env : BcEnv) (tr : List BcEffect) (cur : Option String)
    (filename : Option String) (e : Err) : BcResult :=
  match env.editFail with
  | .error e2 => ⟨tr, cur, some e2⟩
  | .ok _ =>
    let tr2 := tr ++ [BcEffect.editStatus (dlFailText e)]
    match filename with
    | some fn =>
      if env.fileExists fn then ⟨tr2 ++ [.removeFile fn], some (dlFailText e), none⟩
      else ⟨tr2, some (dlFailText e), none⟩
    | none => ⟨tr2, some (dlFailText e), none⟩

/-- Embedding of `button_click`.  The callback is acknowledged, the payload
is split on `|` and indexed at 0 and 1, the menu markup is removed and the
status message posted — all outside the `try`, so any failure there escapes
the handler.  Inside the `try`: the options are chosen by payload kind (the
video branch indexes the payload at 2), the download runs, the filename is
resolved from `requested_downloads` or the rendered template, the status is
edited, the file uploaded, the status deleted and the file removed. -/
def button_click (env : BcEnv) (payload : String) : BcResult :=
  match env.answer with
  | .error e => ⟨[], none, some e⟩
  | .ok _ =>
  let tr0 := [BcEffect.answer]
  let data := splitOnChar '|' payload.data
  match pyIdx data 0 with
  | .error e => ⟨tr0, none, some e⟩
  | .ok t0 =>
  let type_ : String := ⟨t0⟩
  match pyIdx data 1 with
  | .error e => ⟨tr0, none, some e⟩
  | .ok v1 =>
  let vidId : String := ⟨v1⟩
  let url := watchUrl vidId
  match env.editMarkup with
  | .error e => ⟨tr0, none, some e⟩
  | .ok _ =>
  let tr1 := tr0 ++ [BcEffect.removeMarkup]
  match env.replyStatus with
  | .error e => ⟨tr1, none, some e⟩
  | .ok _ =>
  let stText := downloadingText type_
  let tr2 := tr1 ++ [BcEffect.postStatus stText]
  let optsE : Except Err YdlOpts :=
    if type_ = "audio" then .ok audioOpts
    else if type_ = "video" then (pyIdx data 2).map fun r2 => videoOpts ⟨r2⟩
    else .ok baseOpts
  match optsE with
  | .error e => bcRescue env tr2 (some stText) none e
  | .ok opts =>
  let tr3 := tr2 ++ [BcEffect.download url opts]
  match env.download with
  | .error e => bcRescue env tr3 (some stText) none e
  | .ok info =>
  let fnE : Except Err String :=
    match info.requestedDownloads with
    | some rds => (pyIdx rds 0).map fun rd => rd.filepath
    | none =>
      let fn := renderTmpl opts info
      .ok (if type_ = "audio" then String.mk (rsplitBase fn.data) ++ ".mp3" else fn)
  match fnE with
  | .error e => bcRescue env tr3 (some stText) none e
  | .ok filename =>
  match env.editUploading with
  | .error e => bcRescue env tr3 (some stText) (some filename) e
  | .ok _ =>
  let tr4 := tr3 ++ [BcEffect.editStatus uploadingText]
  match env.upload with
  | .error e => bcRescue env tr4 (some uploadingText) (some filename) e
  | .ok _ =>
  let upEff :=
    if type_ = "audio" then BcEffect.uploadAudio filename (info.title.getD "Audio")
    else BcEffect.uploadVideo filename (info.title.getD "Video")
  let tr5 := tr4 ++ [upEff]
  match env.deleteStatus with
  | .error e => bcRescue env tr5 (some uploadingText) (some filename) e
  | .ok _ =>
  let tr6 := tr5 ++ [BcEffect.deleteStatus]
  if env.fileExists filename then ⟨tr6 ++ [.removeFile filename], none, none⟩
  else ⟨tr6, none, none⟩

/-- The two payload shapes `handle_message` encodes into buttons. -/
inductive PayloadKind
  | audio
  | video (res : ℕ)

/-- The callback payload carried by the buttons built in `handle_message`. -/
def mkPayload : PayloadKind → String → String
  | .audio, infoId => "audio|" ++ infoId
  | .video res, infoId => "video|" ++ infoId ++ "|" ++ toString res

/-- A fully successful downloader environment, used as base point for
concrete runs. -/
def okBcEnv : BcEnv :=
  ⟨.ok (), .ok (), .ok (),
    .ok ⟨"abc123", some 1080, "mp4", some "Some Title", some [⟨"downloads/abc123_1080.mp4"⟩]⟩,
    .ok (), .ok (), .ok (), .ok (), fun _ => true⟩

/-- A fully successful inspector environment, used as base point for
concrete runs. -/
def okInspectEnv : InspectEnv :=
  ⟨.ok (), .ok ⟨"abc123", some "Some Title", none, some 60, []⟩, .ok (), .ok (), .ok ()⟩

/-- The keyboards of all menu messages sent in an inspector trace, in
order; used to state that a menu was or was not delivered. -/
def menuKeyboards (tr : List InspectEffect) : List (List (List Btn)) :=
  tr.filterMap fun e =>
    match e with
    | .sendMenuPhoto _ _ kb => some kb
    | .sendMenuText _ kb => some kb
    | _ => none

/-! ## Helper lemmas -/

theorem splitOnChar_ne_nil (c : Char) (l : List Char) : splitOnChar c l ≠ [] := by
  induction l with
  | nil => simp [splitOnChar]
  | cons a rest ih =>
    rw [splitOnChar]
    cases h : splitOnChar c rest with
    | nil => simp
    | cons g gs => by_cases hac : a = c <;> simp [hac]

theorem splitOnChar_not_mem {c : Char} {l : List Char} (h : c ∉ l) :
    splitOnChar c l = [l] := by
  induction l with
  | nil => rfl
  | cons a rest ih =>
    rw [splitOnChar, ih (fun hm => h (List.mem_cons_of_mem a hm))]
    have hac : a ≠ c := fun he => h (he ▸ List.mem_cons_self a rest)
    simp [hac]

theorem splitOnChar_append {c : Char} {xs : List Char} (ys : List Char) (h : c ∉ xs) :
    splitOnChar c (xs ++ c :: ys) = xs :: splitOnChar c ys := by
  induction xs with
  | nil =>
    rw [List.nil_append, splitOnChar]
    cases hys : splitOnChar c ys with
    | nil => exact absurd hys (splitOnChar_ne_nil c ys)
    | cons g gs => simp
  | cons x xs ih =>
    have hxc : x ≠ c := fun he => h (he ▸ List.mem_cons_self x xs)
    rw [List.cons_append, splitOnChar, ih (fun hm => h (List.mem_cons_of_mem x hm))]
    simp [hxc]

theorem digitChar_ne_bar (m : ℕ) (hm : m < 10) : Nat.digitChar m ≠ '|' := by
  interval_cases m <;> decide

theorem toDigitsCore_chars :
    ∀ (fuel n : ℕ) (acc : List Char),
      (∀ c ∈ acc, ∃ m, m < 10 ∧ c = Nat.digitChar m) →
      ∀ c ∈ Nat.toDigitsCore 10 fuel n acc, ∃ m, m < 10 ∧ c = Nat.digitChar m := by
  intro fuel
  induction fuel with
  | zero => intro n acc hacc c hc; exact hacc c hc
  | succ fuel ih =>
    intro n acc hacc c hc
    rw [Nat.toDigitsCore] at hc
    by_cases h : n / 10 = 0
    · rw [if_pos h] at hc
      rcases List.mem_cons.mp hc with h1 | h1
      · exact ⟨n % 10, Nat.mod_lt n (by norm_num), h1⟩
      · exact hacc c h1
    · rw [if_neg h] at hc
      refine ih _ _ ?_ c hc
      intro c' hc'
      rcases List.mem_cons.mp hc' with h1 | h1
      · exact ⟨n % 10, Nat.mod_lt n (by norm_num), h1⟩
      · exact hacc c' h1

theorem bar_not_mem_natRepr (n : ℕ) : '|' ∉ (toString n).data := by
  intro hmem
  have hrepr : (toString n).data = Nat.toDigits 10 n := rfl
  rw [hrepr] at hmem
  obtain ⟨m, hlt, hm⟩ := toDigitsCore_chars (n + 1) n [] (by intro c hc; cases hc) _ hmem
  exact digitChar_ne_bar m hlt hm.symm

theorem firstDedup_sublist_aux :
    ∀ (n : ℕ) (l : List ℕ), l.length ≤ n → List.Sublist (firstDedup l) l := by
  intro n
  induction n with
  | zero =>
    intro l h
    rw [List.length_eq_zero.mp (Nat.le_zero.mp h), firstDedup]
  | succ n ih =>
    intro l h
    cases l with
    | nil => rw [firstDedup]
    | cons a t =>
      rw [firstDedup]
      refine List.Sublist.cons₂ a ?_
      refine (ih _ ?_).trans (List.filter_sublist t)
      exact le_trans (List.length_filter_le _ _) (Nat.le_of_succ_le_succ h)

theorem firstDedup_sublist (l : List ℕ) : List.Sublist (firstDedup l) l :=
  firstDedup_sublist_aux l.length l le_rfl

theorem firstDedup_pairwise_aux :
    ∀ (n : ℕ) (l : List ℕ), l.length ≤ n → l.Pairwise (· ≥ ·) →
      (firstDedup l).Pairwise (· > ·) := by
  intro n
  induction n with
  | zero =>
    intro l h _
    rw [List.length_eq_zero.mp (Nat.le_zero.mp h), firstDedup]
    exact List.Pairwise.nil
  | succ n ih =>
    intro l h hp
    cases l with
    | nil => rw [firstDedup]; exact List.Pairwise.nil
    | cons a t =>
      rw [firstDedup]
      rcases List.pairwise_cons.mp hp with ⟨hge, htp⟩
      refine List.pairwise_cons.mpr ⟨?_, ?_⟩
      · intro b hb
        have hbf : b ∈ t.filter (fun x => x ≠ a) :=
          (firstDedup_sublist _).subset hb
        have hbt : b ∈ t := List.mem_of_mem_filter hbf
        have hba : b ≠ a := by
          have := List.of_mem_filter hbf
          simpa using this
        exact lt_of_le_of_ne (hge b hbt) hba
      · refine ih _ ?_ (htp.filter _)
        exact le_trans (List.length_filter_le _ _) (Nat.le_of_succ_le_succ h)

theorem firstDedup_pairwise {l : List ℕ} (hp : l.Pairwise (· ≥ ·)) :
    (firstDedup l).Pairwise (· > ·) :=
  firstDedup_pairwise_aux l.length l le_rfl hp

theorem videoRows_eq (infoId : String) :
    ∀ (l : List MediaFormat) (seen : Finset ℕ),
      (∀ f ∈ l, heightTruthy f.height) →
      videoRows infoId l seen =
        ((firstDedup ((l.map keyH).filter fun h => decide (h ∉ seen))).take
            (5 - seen.card)).map (fun r => [videoButton infoId r]) := by
  intro l
  induction l with
  | nil => intro seen _; simp [videoRows, firstDedup]
  | cons f t ih =>
    intro seen hall
    have hf := hall f (List.mem_cons_self f t)
    have htail : ∀ g ∈ t, heightTruthy g.height :=
      fun g hg => hall g (List.mem_cons_of_mem f hg)
    match hh : f.height with
    | none => rw [hh] at hf; simp [heightTruthy] at hf
    | some r =>
      rw [hh] at hf
      have hr0 : r ≠ 0 := by simpa [heightTruthy] using hf
      have hkey : keyH f = r := by simp [keyH, hh]
      simp only [videoRows, hh]
      by_cases hmem : r ∈ seen
      · have hcond : ¬(r ≠ 0 ∧ r ∉ seen) := by tauto
        rw [if_neg hcond, ih seen htail]
        have hfil : ((f :: t).map keyH).filter (fun h => decide (h ∉ seen)) =
            (t.map keyH).filter (fun h => decide (h ∉ seen)) := by
          simp [hkey, hmem]
        rw [hfil]
      · by_cases hcard : seen.card < 5
        · rw [if_pos ⟨hr0, hmem⟩, if_pos hcard, ih (insert r seen) htail]
          have hfil : ((f :: t).map keyH).filter (fun h => decide (h ∉ seen)) =
              r :: (t.map keyH).filter (fun h => decide (h ∉ seen)) := by
            simp [hkey, hmem]
          rw [hfil, firstDedup]
          have hcard5 : 5 - seen.card = (5 - (insert r seen).card) + 1 := by
            rw [Finset.card_insert_of_not_mem hmem]; omega
          rw [hcard5, List.take_succ_cons, List.map_cons]
          have hff : ((t.map keyH).filter (fun h => decide (h ∉ seen))).filter
                (fun b => decide (b ≠ r)) =
              (t.map keyH).filter (fun h => decide (h ∉ insert r seen)) := by
            rw [List.filter_filter]
            apply List.filter_congr
            intro x _
            by_cases hx : x = r <;> by_cases hxs : x ∈ seen <;>
              simp [hx, hxs, Finset.mem_insert]
          rw [hff]
        · rw [if_pos ⟨hr0, hmem⟩, if_neg hcard, ih seen htail]
          have h0 : 5 - seen.card = 0 := by omega
          rw [h0]
          simp

theorem sortedHeights_pairwise (fs : List MediaFormat) :
    ((sortFormatsDesc fs).map keyH).Pairwise (· ≥ ·) := by
  have hs : List.Sorted byHeightDesc (sortFormatsDesc fs) :=
    List.sorted_insertionSort byHeightDesc _
  exact List.Pairwise.map keyH (fun a b h => h) hs

theorem mem_sortFormatsDesc_truthy {fs : List MediaFormat} {f : MediaFormat}
    (h : f ∈ sortFormatsDesc fs) : heightTruthy f.height := by
  unfold sortFormatsDesc at h
  exact (List.mem_filter.mp ((List.mem_insertionSort byHeightDesc).mp h)).2

theorem firstDedup_concrete :
    firstDedup [2160, 1080, 1080, 480, 240, 240, 144] = [2160, 1080, 480, 240, 144] := by
  simp [firstDedup]

/-! ## Claim theorems -/

/-- C2: the video buttons offered by the inspector are the distinct heights
of the candidate formats sorted descending, deduplicated keeping the first
candidate per height and capped at 5 entries; they are strictly descending
(each resolution exactly once); and for a format list whose heights are
{144, 240, 240, 480, 1080, 1080, 2160} in any order the offered resolutions
are exactly [2160, 1080, 480, 240, 144]. -/
theorem C2_video_buttons_distinct_sorted_capped (infoId : String) (fs : List MediaFormat) :
    buildKeyboard infoId fs =
      [audioButton infoId] ::
        ((firstDedup ((sortFormatsDesc fs).map keyH)).take 5).map
          (fun r => [videoButton infoId r]) ∧
    ((firstDedup ((sortFormatsDesc fs).map keyH)).take 5).Pairwise (· > ·) ∧
    (List.Perm (fs.map fun f => f.height)
        [some 144, some 240, some 240, some 480, some 1080, some 1080, some 2160] →
      (firstDedup ((sortFormatsDesc fs).map keyH)).take 5 = [2160, 1080, 480, 240, 144]) := by
  refine ⟨?_, ?_, ?_⟩
  · unfold buildKeyboard
    rw [videoRows_eq infoId (sortFormatsDesc fs) ∅
      (fun f hf => mem_sortFormatsDesc_truthy hf)]
    simp
  · exact (firstDedup_pairwise (sortedHeights_pairwise fs)).sublist
      (List.take_sublist 5 _)
  · intro hperm
    have hall : ∀ f ∈ fs, heightTruthy f.height := by
      intro f hf
      have hm : f.height ∈ fs.map (fun f => f.height) := List.mem_map_of_mem _ hf
      have h2 := hperm.mem_iff.mp hm
      simp only [List.mem_cons, List.not_mem_nil, or_false] at h2
      rcases h2 with h | h | h | h | h | h | h <;> simp [heightTruthy, h]
    have hfilter : fs.filter (fun f => heightTruthy f.height) = fs :=
      List.filter_eq_self.mpr hall
    have hperm1 : List.Perm (sortFormatsDesc fs) fs := by
      unfold sortFormatsDesc
      rw [hfilter]
      exact List.perm_insertionSort byHeightDesc fs
    have hperm2 : List.Perm ((sortFormatsDesc fs).map keyH)
        [2160, 1080, 1080, 480, 240, 240, 144] := by
      have hmapped : List.Perm ((sortFormatsDesc fs).map keyH) (fs.map keyH) :=
        hperm1.map keyH
      have hmapped2 : List.Perm ((fs.map fun f => f.height).map fun o => o.getD 0)
          ([some 144, some 240, some 240, some 480, some 1080, some 1080,
            some 2160].map fun o => o.getD 0) :=
        hperm.map _
      rw [List.map_map] at hmapped2
      refine (hmapped.trans hmapped2).trans ?_
      simp only [List.map_cons, List.map_nil, Option.getD_some]
      decide
    have hsorted : ((sortFormatsDesc fs).map keyH).Pairwise (· ≥ ·) :=
      sortedHeights_pairwise fs
    haveI : IsAntisymm ℕ (· ≥ ·) := ⟨fun a b h1 h2 => le_antisymm h2 h1⟩
    have heq : (sortFormatsDesc fs).map keyH = [2160, 1080, 1080, 480, 240, 240, 144] :=
      List.eq_of_perm_of_sorted hperm2 hsorted (by decide)
    rw [heq, firstDedup_concrete]
    rfl

/-- C2 witness: a concrete format list with heights
{144, 240, 240, 480, 1080, 1080, 2160}. -/
theorem C2_video_buttons_distinct_sorted_capped_witness :
    List.Perm (([⟨some 144⟩, ⟨some 240⟩, ⟨some 240⟩, ⟨some 480⟩, ⟨some 1080⟩,
        ⟨some 1080⟩, ⟨some 2160⟩] : List MediaFormat).map fun f => f.height)
      [some 144, some 240, some 240, some 480, some 1080, some 1080, some 2160] ∧
    (firstDedup ((sortFormatsDesc [⟨some 144⟩, ⟨some 240⟩, ⟨some 240⟩, ⟨some 480⟩,
        ⟨some 1080⟩, ⟨some 1080⟩, ⟨some 2160⟩]).map keyH)).take 5 =
      [2160, 1080, 480, 240, 144] :=
  ⟨List.Perm.refl _,
    (C2_video_buttons_distinct_sorted_capped "abc123"
      [⟨some 144⟩, ⟨some 240⟩, ⟨some 240⟩, ⟨some 480⟩, ⟨some 1080⟩, ⟨some 1080⟩,
        ⟨some 2160⟩]).2.2 (List.Perm.refl _)⟩

/-- C6: for a metadata result none of whose formats exposes a height, the
keyboard is exactly one row holding the audio button, the inspector still
sends exactly one menu carrying that keyboard, and the handler completes
without a failure. -/
theorem C6_audio_only_menu (env : InspectEnv) (info : YdlMeta)
    (h1 : env.replyChecking = .ok ()) (h2 : env.extractInfo = .ok info)
    (h3 : ∀ f ∈ info.formats, f.height = none)
    (h4 : env.sendMenu = .ok ()) (h5 : env.deleteChecking = .ok ()) :
    buildKeyboard info.id info.formats = [[audioButton info.id]] ∧
    menuKeyboards (handle_message env).trace = [[[audioButton info.id]]] ∧
    (handle_message env).escaped = none := by
  have hkb : buildKeyboard info.id info.formats = [[audioButton info.id]] := by
    have hfil : info.formats.filter (fun f => heightTruthy f.height) = [] := by
      apply List.filter_eq_nil_iff.mpr
      intro f hf
      rw [h3 f hf]
      simp [heightTruthy]
    unfold buildKeyboard sortFormatsDesc
    rw [hfil]
    rfl
  refine ⟨hkb, ?_, ?_⟩
  · simp only [handle_message, h1, h2, h4, h5, hkb]
    cases info.thumbnail <;> simp [menuKeyboards]
  · simp only [handle_message, h1, h2, h4, h5]

/-- C6 witness: a successful inspection of a media item with an empty format
list still yields the one-row audio menu. -/
theorem C6_audio_only_menu_witness :
    okInspectEnv.extractInfo = .ok ⟨"abc123", some "Some Title", none, some 60, []⟩ ∧
    menuKeyboards (handle_message okInspectEnv).trace = [[[audioButton "abc123"]]] ∧
    (handle_message okInspectEnv).escaped = none :=
  ⟨rfl,
    (C6_audio_only_menu okInspectEnv ⟨"abc123", some "Some Title", none, some 60, []⟩
      rfl rfl (by simp) rfl rfl).2.1,
    (C6_audio_only_menu okInspectEnv ⟨"abc123", some "Some Title", none, some 60, []⟩
      rfl rfl (by simp) rfl rfl).2.2⟩

/-- C4: when metadata extraction raises, the checking acknowledgment is
edited in place to the failure notice containing the error text, no menu
message is ever sent, and the handler completes without escaping. -/
theorem C4_extraction_failure_no_menu (env : InspectEnv) (e : Err)
    (h1 : env.replyChecking = .ok ()) (h2 : env.extractInfo = .error e)
    (h3 : env.editFail = .ok ()) :
    (handle_message env).trace =
      [InspectEffect.postChecking, InspectEffect.editChecking (inspectFailText e)] ∧
    (handle_message env).statusText = some (inspectFailText e) ∧
    menuKeyboards (handle_message env).trace = [] ∧
    (handle_message env).escaped = none := by
  simp only [handle_message, h1, h2, inspectRescue, h3]
  simp [menuKeyboards]

/-- C4 witness: a concrete inspection run whose extraction fails with error
text `boom`. -/
theorem C4_extraction_failure_no_menu_witness :
    ({okInspectEnv with extractInfo := .error "boom"} : InspectEnv).extractInfo =
      .error "boom" ∧
    (handle_message {okInspectEnv with extractInfo := .error "boom"}).statusText =
      some (inspectFailText "boom") ∧
    menuKeyboards (handle_message {okInspectEnv with extractInfo := .error "boom"}).trace =
      [] :=
  ⟨rfl,
    (C4_extraction_failure_no_menu {okInspectEnv with extractInfo := .error "boom"}
      "boom" rfl rfl rfl).2.1,
    (C4_extraction_failure_no_menu {okInspectEnv with extractInfo := .error "boom"}
      "boom" rfl rfl rfl).2.2.1⟩

theorem mk_data (s : String) : String.mk s.data = s := rfl

theorem audio_payload_split (id : String) (hid : '|' ∉ id.data) :
    splitOnChar '|' (mkPayload .audio id).data = ["audio".data, id.data] := by
  have hdata : (mkPayload .audio id).data = "audio".data ++ '|' :: id.data := by
    show ("audio|" ++ id).data = _
    rw [String.data_append]
    have hv : ("audio|" : String).data = "audio".data ++ ['|'] := by decide
    rw [hv, List.append_assoc, List.singleton_append]
  rw [hdata, splitOnChar_append _ (by decide), splitOnChar_not_mem hid]

theorem video_payload_split (id : String) (res : ℕ) (hid : '|' ∉ id.data) :
    splitOnChar '|' (mkPayload (.video res) id).data =
      ["video".data, id.data, (toString res).data] := by
  have hdata : (mkPayload (.video res) id).data =
      "video".data ++ '|' :: (id.data ++ '|' :: (toString res).data) := by
    show ("video|" ++ id ++ "|" ++ toString res).data = _
    rw [String.data_append, String.data_append, String.data_append]
    have hv : ("video|" : String).data = "video".data ++ ['|'] := by decide
    have hb : ("|" : String).data = ['|'] := by decide
    rw [hv, hb]
    simp [List.append_assoc]
  rw [hdata, splitOnChar_append _ (by decide), splitOnChar_append _ hid,
    splitOnChar_not_mem (bar_not_mem_natRepr res)]

theorem bcRescue_escaped_none {env : BcEnv} (tr : List BcEffect) (cur : Option String)
    (fn : Option String) (e : Err) (hef : env.editFail = .ok ()) :
    (bcRescue env tr cur fn e).escaped = none := by
  unfold bcRescue
  rw [hef]
  cases fn with
  | none => rfl
  | some f => by_cases hfe : env.fileExists f <;> simp [hfe]

theorem mem_bcRescue_trace {x : BcEffect} {tr : List BcEffect} (env : BcEnv)
    (cur : Option String) (fn : Option String) (e : Err) (h : x ∈ tr) :
    x ∈ (bcRescue env tr cur fn e).trace := by
  unfold bcRescue
  cases env.editFail with
  | error e2 => simpa using h
  | ok _ =>
    cases fn with
    | none => simp [h]
    | some f => by_cases hfe : env.fileExists f <;> simp [hfe, h]

/-- C10: a callback payload with no `|` separator makes the download handler
raise an uncaught index error after the button press has been acknowledged
and before any status message exists: the handler escapes with the index
error, its trace holds only the acknowledgment, and no status message was
ever posted. -/
theorem C10_missing_separator_escapes (env : BcEnv) (payload : String)
    (h1 : env.answer = .ok ()) (h2 : '|' ∉ payload.data) :
    (button_click env payload).escaped = some "list index out of range" ∧
    (button_click env payload).trace = [BcEffect.answer] ∧
    (button_click env payload).statusText = none := by
  have hsplit : splitOnChar '|' payload.data = [payload.data] :=
    splitOnChar_not_mem h2
  simp [button_click, h1, hsplit, pyIdx]

/-- C10 witness: the concrete payload `garbage` under an otherwise healthy
environment. -/
theorem C10_missing_separator_escapes_witness :
    '|' ∉ ("garbage" : String).data ∧
    (button_click okBcEnv "garbage").escaped = some "list index out of range" :=
  ⟨by decide, (C10_missing_separator_escapes okBcEnv "garbage" rfl (by decide)).1⟩

/-- C3: button payloads round-trip without any server-side session: the
video button produced by the inspector carries exactly the payload
`video|<id>|<res>`; feeding that payload to the download handler produces a
download request for the canonical URL of the identifier whose format
selector targets exactly that height. -/
theorem C3_payload_roundtrip (env : BcEnv) (id : String) (res : ℕ)
    (hid : '|' ∉ id.data)
    (h1 : env.answer = .ok ()) (h2 : env.editMarkup = .ok ())
    (h3 : env.replyStatus = .ok ()) :
    (videoButton id res).callbackData = mkPayload (.video res) id ∧
    (videoOpts (toString res)).format =
      some ("bestvideo[height=" ++ toString res ++ "]+bestaudio/best[height=" ++
        toString res ++ "]/best") ∧
    BcEffect.download (watchUrl id) (videoOpts (toString res)) ∈
      (button_click env (mkPayload (.video res) id)).trace := by
  refine ⟨rfl, rfl, ?_⟩
  have hsplit := video_payload_split id res hid
  simp only [button_click, h1, h2, h3, hsplit, pyIdx, List.get?, mk_data]
  rw [show (String.mk ['v', 'i', 'd', 'e', 'o'] : String) = "video" from rfl]
  rw [if_neg (by decide)]
  simp only [if_true, Except.map, mk_data]
  repeat' split
  all_goals first
    | (apply mem_bcRescue_trace; simp)
    | simp

/-- C3 witness: the payload for identifier `abc123` at resolution 1080
decodes to a request for height 1080 on the canonical URL of `abc123`. -/
theorem C3_payload_roundtrip_witness :
    '|' ∉ ("abc123" : String).data ∧
    BcEffect.download (watchUrl "abc123") (videoOpts (toString 1080)) ∈
      (button_click okBcEnv (mkPayload (.video 1080) "abc123")).trace :=
  ⟨by decide,
    (C3_payload_roundtrip okBcEnv "abc123" 1080 (by decide) rfl rfl rfl).2.2⟩

/-- C1: for a download that succeeds (a file path was produced through
`requested_downloads`) followed by an upload failure, the handler catches
the error, leaves the status message showing the failure notice (prefix
plus error text) rather than reaching the success state in which the status
message is deleted, and deletes the local file anyway. -/
theorem C1_upload_failure_cleanup (env : BcEnv) (k : PayloadKind) (id : String)
    (hid : '|' ∉ id.data)
    (h1 : env.answer = .ok ()) (h2 : env.editMarkup = .ok ())
    (h3 : env.replyStatus = .ok ())
    (info : YdlDlInfo) (h4 : env.download = .ok info)
    (fp : String) (h5 : info.requestedDownloads = some [⟨fp⟩])
    (h6 : env.editUploading = .ok ()) (e : Err) (h7 : env.upload = .error e)
    (h8 : env.editFail = .ok ()) (h9 : env.fileExists fp = true) :
    (button_click env (mkPayload k id)).escaped = none ∧
    (button_click env (mkPayload k id)).statusText = some (dlFailText e) ∧
    BcEffect.removeFile fp ∈ (button_click env (mkPayload k id)).trace ∧
    BcEffect.deleteStatus ∉ (button_click env (mkPayload k id)).trace := by
  cases k with
  | audio =>
    have hsplit := audio_payload_split id hid
    simp only [button_click, h1, h2, h3, h4, h5, h6, h7, hsplit, pyIdx, List.get?,
      mk_data]
    simp only [if_true, Except.map, bcRescue, h8, h9]
    simp
  | video res =>
    have hsplit := video_payload_split id res hid
    simp only [button_click, h1, h2, h3, h4, h5, h6, h7, hsplit, pyIdx, List.get?,
      mk_data]
    rw [show (String.mk ['v', 'i', 'd', 'e', 'o'] : String) = "video" from rfl]
    rw [if_neg (by decide)]
    simp only [if_true, Except.map, mk_data, bcRescue, h8, h9]
    simp

/-- C1 witness: a concrete video download for `abc123` at 1080 whose upload
fails with `too large`; the file is removed and the status shows the
failure notice. -/
theorem C1_upload_failure_cleanup_witness :
    ({okBcEnv with upload := .error "too large"} : BcEnv).upload = .error "too large" ∧
    (button_click {okBcEnv with upload := .error "too large"}
        (mkPayload (.video 1080) "abc123")).statusText =
      some (dlFailText "too large") ∧
    BcEffect.removeFile "downloads/abc123_1080.mp4" ∈
      (button_click {okBcEnv with upload := .error "too large"}
        (mkPayload (.video 1080) "abc123")).trace :=
  ⟨rfl,
    (C1_upload_failure_cleanup {okBcEnv with upload := .error "too large"}
      (.video 1080) "abc123" (by decide) rfl rfl rfl
      ⟨"abc123", some 1080, "mp4", some "Some Title",
        some [⟨"downloads/abc123_1080.mp4"⟩]⟩ rfl
      "downloads/abc123_1080.mp4" rfl rfl "too large" rfl rfl rfl).2.1,
    (C1_upload_failure_cleanup {okBcEnv with upload := .error "too large"}
      (.video 1080) "abc123" (by decide) rfl rfl rfl
      ⟨"abc123", some 1080, "mp4", some "Some Title",
        some [⟨"downloads/abc123_1080.mp4"⟩]⟩ rfl
      "downloads/abc123_1080.mp4" rfl rfl "too large" rfl rfl rfl).2.2.1⟩

/-- C7 counterexample: the claim that every error raised by an external call
in the handlers is caught fails — posting the status message happens before
the `try` block of `button_click`, so its failure escapes the handler. -/
theorem C7_counterexample_status_post_escapes :
    (button_click {okBcEnv with replyStatus := .error "network down"}
        "audio|abc123").escaped = some "network down" ∧
    ¬ (button_click {okBcEnv with replyStatus := .error "network down"}
        "audio|abc123").escaped = none := by
  constructor <;> decide

/-- C7 (amended): the catch-all boundaries cover only the calls inside each
handler's `try` block.  When the calls made outside the `try` succeed (for
the inspector: posting the checking message; for the downloader: the
callback ack, payload indexing at 0 and 1, markup removal and status post)
and the failure-path edit itself succeeds, no error escapes the handler —
every error from the wrapped extraction, download, filename-resolution,
upload and status-message calls is caught. -/
theorem C7_no_escape_from_inside_try :
    (∀ env : InspectEnv, env.replyChecking = .ok () → env.editFail = .ok () →
      (handle_message env).escaped = none) ∧
    (∀ (env : BcEnv) (payload : String), env.answer = .ok () →
      2 ≤ (splitOnChar '|' payload.data).length →
      env.editMarkup = .ok () → env.replyStatus = .ok () → env.editFail = .ok () →
      (button_click env payload).escaped = none) := by
  constructor
  · intro env h1 hef
    simp only [handle_message]
    rw [h1]
    cases hx : env.extractInfo with
    | error e => simp [inspectRescue, hef]
    | ok info =>
      cases hs : env.sendMenu with
      | error e => simp [inspectRescue, hef]
      | ok _ =>
        cases hdc : env.deleteChecking with
        | error e => simp [inspectRescue, hef]
        | ok _ => simp
  · intro env payload h1 hlen h2 h3 hef
    rcases hd : splitOnChar '|' payload.data with _ | ⟨a, _ | ⟨b, rest2⟩⟩
    · exact absurd hd (splitOnChar_ne_nil _ _)
    · rw [hd] at hlen; simp at hlen
    · simp only [button_click, h1, h2, h3, hd, pyIdx, List.get?]
      repeat' split
      all_goals first
        | rfl
        | exact bcRescue_escaped_none _ _ _ _ hef

/-- C7 witness: a fully successful inspection and a fully successful
download both complete without an escaping error. -/
theorem C7_no_escape_from_inside_try_witness :
    (handle_message okInspectEnv).escaped = none ∧
    (button_click okBcEnv "audio|abc123").escaped = none :=
  ⟨C7_no_escape_from_inside_try.1 okInspectEnv rfl rfl,
    C7_no_escape_from_inside_try.2 okBcEnv "audio|abc123" rfl (by decide) rfl rfl rfl⟩

/-- C8: evaluating the startup flow with no authentication token in the
environment: the misconfiguration is printed, yet the process still builds
the application (with the absent token) and runs the polling loop — it
proceeds to serve traffic instead of stopping, contradicting the
fatal-at-startup policy. -/
theorem C8_missing_token_still_proceeds :
    mainFlow ⟨none, none⟩ =
      [StartEffect.printTokenError, StartEffect.buildApplication none,
        StartEffect.runPolling] := rfl

/-- C9 counterexample: the handler class defines only `do_GET`, so a POST
request gets the HTTP stack's 501 default, not a 200. -/
theorem C9_counterexample_post_not_200 :
    (handleRequest "POST" "/").status = 501 ∧
    ¬ (handleRequest "POST" "/").status = 200 := by
  constructor <;> decide

/-- C9 (amended): every GET request, whatever its path, is answered 200 with
the fixed body `Bot is running!`, and the liveness port comes from the
environment with default 8080; non-GET methods fall to the framework's 501
default. -/
theorem C9_liveness_get_200_default_port :
    (∀ (method path : String), method = "GET" →
      handleRequest method path = ⟨200, "Bot is running!"⟩) ∧
    serverPort none = 8080 ∧ ∀ p, serverPort (some p) = p := by
  refine ⟨?_, rfl, fun p => rfl⟩
  intro method path h
  rw [h]
  rfl

/-- C9 witness: a GET on an arbitrary path is answered 200 with the fixed
body. -/
theorem C9_liveness_get_200_default_port_witness :
    handleRequest "GET" "/any/path" = ⟨200, "Bot is running!"⟩ :=
  C9_liveness_get_200_default_port.1 "GET" "/any/path" rfl


theorem unitPow_B : unitPow "B" = 0 := by decide

theorem unitPow_KB : unitPow "KB" = 1 := by decide

theorem unitPow_MB : unitPow "MB" = 2 := by decide

theorem unitPow_GB : unitPow "GB" = 3 := by decide

theorem unitPow_TB : unitPow "TB" = 4 := by decide

/-- C5 (amended): for every byte count below 1024 terabytes, the numeric
magnitude returned by the size formatter times the power of 1024 implied by
its unit reconstructs the input exactly (the source then rounds this value
for display only), the magnitude is below 1024, and the unit is the first
for which that holds.  Beyond 1024 TB the loop divides once more but still
reports `TB`, so reconstruction through the implied unit under-reports by a
factor of 1024. -/
theorem C5_size_formatter_reconstructs (n : ℕ) (hn : (n : ℚ) < 1024 ^ 5) :
    (human_readable_size n).1 * 1024 ^ unitPow (human_readable_size n).2 = n ∧
    (human_readable_size n).1 < 1024 ∧
    (unitPow (human_readable_size n).2 ≠ 0 →
      (1024 : ℚ) ^ unitPow (human_readable_size n).2 ≤ n) := by
  by_cases h0 : (n : ℚ) < 1024
  · have hv : human_readable_size (n : ℚ) = ((n : ℚ), "B") := by
      simp [human_readable_size, sizeUnits, hrsLoop, h0]
    rw [hv]
    refine ⟨?_, h0, ?_⟩
    · show (n : ℚ) * 1024 ^ unitPow "B" = n
      rw [unitPow_B, pow_zero, mul_one]
    · show unitPow "B" ≠ 0 → (1024 : ℚ) ^ unitPow "B" ≤ n
      intro h
      exact absurd unitPow_B h
  · by_cases h1 : (n : ℚ) / 1024 < 1024
    · have hv : human_readable_size (n : ℚ) = ((n : ℚ) / 1024, "KB") := by
        simp [human_readable_size, sizeUnits, hrsLoop, h0, h1]
      rw [hv]
      refine ⟨?_, h1, fun _ => ?_⟩
      · show (n : ℚ) / 1024 * 1024 ^ unitPow "KB" = n
        rw [unitPow_KB, pow_one]
        field_simp
      · show (1024 : ℚ) ^ unitPow "KB" ≤ n
        rw [unitPow_KB, pow_one]
        exact le_of_not_lt h0
    · by_cases h2 : (n : ℚ) / 1024 / 1024 < 1024
      · have hv : human_readable_size (n : ℚ) = ((n : ℚ) / 1024 / 1024, "MB") := by
          simp [human_readable_size, sizeUnits, hrsLoop, h0, h1, h2]
        rw [hv]
        refine ⟨?_, h2, fun _ => ?_⟩
        · show (n : ℚ) / 1024 / 1024 * 1024 ^ unitPow "MB" = n
          rw [unitPow_MB, div_div]
          field_simp
          exact Or.inl (by norm_num)
        · show (1024 : ℚ) ^ unitPow "MB" ≤ n
          have hb : (1024 : ℚ) * 1024 ≤ n := by
            have := le_of_not_lt h1
            rw [le_div_iff (by norm_num : (0:ℚ) < 1024)] at this
            exact this
          rw [unitPow_MB]
          nlinarith [hb]
      · by_cases h3 : (n : ℚ) / 1024 / 1024 / 1024 < 1024
        · have hv : human_readable_size (n : ℚ) =
              ((n : ℚ) / 1024 / 1024 / 1024, "GB") := by
            simp [human_readable_size, sizeUnits, hrsLoop, h0, h1, h2, h3]
          rw [hv]
          refine ⟨?_, h3, fun _ => ?_⟩
          · show (n : ℚ) / 1024 / 1024 / 1024 * 1024 ^ unitPow "GB" = n
            rw [unitPow_GB, div_div, div_div]
            field_simp
            exact Or.inl (by norm_num)
          · show (1024 : ℚ) ^ unitPow "GB" ≤ n
            have hb : (1024 : ℚ) * (1024 * 1024) ≤ n := by
              have := le_of_not_lt h2
              rw [div_div, le_div_iff (by norm_num : (0:ℚ) < 1024 * 1024)] at this
              exact this
            rw [unitPow_GB]
            nlinarith [hb]
        · have h4 : (n : ℚ) / 1024 / 1024 / 1024 / 1024 < 1024 := by
            rw [div_div, div_div, div_div,
              div_lt_iff (by norm_num : (0:ℚ) < 1024 * (1024 * (1024 * 1024)))]
            norm_num at hn ⊢
            linarith
          have hv : human_readable_size (n : ℚ) =
              ((n : ℚ) / 1024 / 1024 / 1024 / 1024, "TB") := by
            simp [human_readable_size, sizeUnits, hrsLoop, h0, h1, h2, h3, h4]
          rw [hv]
          refine ⟨?_, h4, fun _ => ?_⟩
          · show (n : ℚ) / 1024 / 1024 / 1024 / 1024 * 1024 ^ unitPow "TB" = n
            rw [unitPow_TB, div_div, div_div, div_div]
            field_simp
            exact Or.inl (by norm_num)
          · show (1024 : ℚ) ^ unitPow "TB" ≤ n
            have hb : (1024 : ℚ) * (1024 * (1024 * 1024)) ≤ n := by
              have := le_of_not_lt h3
              rw [div_div, div_div,
                le_div_iff (by norm_num : (0:ℚ) < 1024 * (1024 * 1024))] at this
              exact this
            rw [unitPow_TB]
            nlinarith [hb]

/-- C5 counterexample: at 2 * 1024^5 bytes (2048 TB) the formatter reports
magnitude 2 with unit TB; 2 * 1024^4 does not reconstruct the input, so the
reconstruction property claimed for every byte count fails. -/
theorem C5_counterexample_tb_fallback :
    (human_readable_size ((2 : ℚ) * 1024 ^ 5)).2 = "TB" ∧
    (human_readable_size ((2 : ℚ) * 1024 ^ 5)).1 *
        1024 ^ unitPow (human_readable_size ((2 : ℚ) * 1024 ^ 5)).2 ≠
      (2 : ℚ) * 1024 ^ 5 := by
  have hv : human_readable_size ((2 : ℚ) * 1024 ^ 5) = (2, "TB") := by
    have c0 : ¬((2 : ℚ) * 1024 ^ 5 < 1024) := by norm_num
    have c1 : ¬((2 : ℚ) * 1024 ^ 5 / 1024 < 1024) := by norm_num
    have c2 : ¬((2 : ℚ) * 1024 ^ 5 / 1024 / 1024 < 1024) := by norm_num
    have c3 : ¬((2 : ℚ) * 1024 ^ 5 / 1024 / 1024 / 1024 < 1024) := by norm_num
    have c4 : ¬((2 : ℚ) * 1024 ^ 5 / 1024 / 1024 / 1024 / 1024 < 1024) := by norm_num
    simp [human_readable_size, sizeUnits, hrsLoop, c0, c1, c2, c3, c4]
    norm_num
  rw [hv]
  refine ⟨rfl, ?_⟩
  show (2 : ℚ) * 1024 ^ unitPow "TB" ≠ 2 * 1024 ^ 5
  rw [unitPow_TB]
  norm_num
/-- C5 witness: 2048 bytes reconstruct exactly as 2 KB. -/
theorem C5_size_formatter_reconstructs_witness :
    ((2048 : ℕ) : ℚ) < 1024 ^ 5 ∧
    (human_readable_size ((2048 : ℕ) : ℚ)).1 *
        1024 ^ unitPow (human_readable_size ((2048 : ℕ) : ℚ)).2 = ((2048 : ℕ) : ℚ) :=
  ⟨by norm_num, (C5_size_formatter_reconstructs 2048 (by norm_num)).1⟩

end MediaBot
